import Mathlib

/-!
Shallow embedding of the telegram-survey-bot conversation engine
(pkg/fsm, pkg/state, pkg/config, pkg/fsm/questions) and proofs about it.

Modelling conventions:
* Go `map[string]string` is an association list `List (String × String)`;
  reading a missing key yields the zero value `""` exactly as in Go
  (`mapGet`), and assignment replaces the binding in place (`mapSet`).
* Go `map[string]SectionConfig` is an association list keyed by section id;
  reading uses `lookupSection` / `lookupSectionD` (zero value on miss).
  Go map iteration order is unspecified, so functions that iterate a map
  take an `iterOrder : List String` parameter standing for the enumeration
  the runtime happens to produce.
* `time.Now()` is passed in as a parameter `now : Nat` (Unix nanoseconds);
  the Go zero `time.Time` is modelled by `0`.
* Pointer identity of `*state.Record` is modelled by list position: the
  program never aliases a record between `Records` and `CurrentRecord`,
  so the pointer-equality filter in `clearUserAnswers` is modelled as
  erasure of the selected index (resp. clearing the draft).
* Outbound port calls are collected in a `List PortCall`; the port's
  responses are supplied by a `PortModel` of response functions.
* The looplab FSM current-state strings are carried as two fields of
  `UserState` (`recordFSMState`, `mainMenuFSMState`).
-/

namespace SurveyBot

/-- Model of `botport.BotMessage` (pkg/ports/botport). -/
structure BotMessage where
  chatID : Int
  messageID : Int
  transport : String
  payload : String
  meta : List (String × String)
  deriving Repr, DecidableEq

/-- The zero value of `botport.BotMessage`. -/
def emptyBotMessage : BotMessage := ⟨0, 0, "", "", []⟩

/-- Model of `*botport.BotError` as seen by the engine: a normalized code
(checked by `botport.IsCode`) and the rendered error text (checked by
`strings.Contains(err.Error(), ...)`). -/
structure BotErr where
  code : String
  msg : String
  deriving Repr, DecidableEq

/-- One outbound port operation performed by the engine. -/
inductive PortCall where
  | send (chatID : Int) (text : String)
  | edit (chatID : Int) (messageID : Int) (text : String)
  | ack (callbackID : String) (text : String)
  deriving Repr, DecidableEq

/-- Responses of the outbound port, one function per operation.
`AnswerCallback` results are ignored by every caller in the modelled code,
so only send/edit responses are carried. -/
structure PortModel where
  sendMessage : Int → String → Except BotErr BotMessage
  editMessage : Int → Int → String → Except BotErr BotMessage

/-- Model of `state.Record` (pkg/state/interfaces.go). `createdAt` is Unix
nanoseconds, `0` for the Go zero time. -/
structure Record where
  id : String
  data : List (String × String)
  isSaved : Bool
  createdAt : Nat
  deriving Repr, DecidableEq

instance : Inhabited Record := ⟨⟨"", [], false, 0⟩⟩

/-- Model of `state.NewRecord()`. -/
def newRecord : Record := ⟨"", [], false, 0⟩

/-- Model of `state.UserState` (pkg/state/interfaces.go); the two FSM
instances are represented by their current-state strings. -/
structure UserState where
  userID : Int
  userName : String
  records : List Record
  currentRecord : Option Record
  currentSection : String
  currentQuestion : Int
  lastMessageID : Int
  lastPrompt : BotMessage
  listOffset : Int
  recordFSMState : String
  mainMenuFSMState : String
  deriving Repr, DecidableEq

/-- Model of `config.ButtonOption`. -/
structure ButtonOption where
  text : String
  value : String
  deriving Repr, DecidableEq

/-- Model of `config.QuestionConfig`; `qtype` is the Go field `Type`.
`ratingMin`/`ratingMax` are the optional compound-strategy bounds (Go `int`,
zero when unset). -/
structure QuestionConfig where
  id : String
  prompt : String
  qtype : String
  storeKey : String
  options : List ButtonOption
  ratingMin : Int
  ratingMax : Int
  nextButtonLabel : String
  finishButtonLabel : String
  deriving Repr, DecidableEq

instance : Inhabited QuestionConfig := ⟨⟨"", "", "", "", [], 0, 0, "", ""⟩⟩

/-- Model of `config.SectionConfig`. -/
structure SectionConfig where
  title : String
  questions : List QuestionConfig
  deriving Repr, DecidableEq

instance : Inhabited SectionConfig := ⟨⟨"", []⟩⟩

/-- Model of `config.RecordConfig`; the `Sections` map is an association
list keyed by section id. -/
structure RecordConfig where
  sections : List (String × SectionConfig)
  metadata : List (String × String)
  deriving Repr, DecidableEq

/-- Go map read with ok-flag dropped: `m[k]`, returning the zero value `""`
when the key is absent. -/
def mapGet (m : List (String × String)) (k : String) : String :=
  match m with
  | [] => ""
  | (k', v) :: rest => if k' = k then v else mapGet rest k

/-- Go map assignment `m[k] = v`. -/
def mapSet (m : List (String × String)) (k v : String) : List (String × String) :=
  match m with
  | [] => [(k, v)]
  | (k', v') :: rest => if k' = k then (k, v) :: rest else (k', v') :: mapSet rest k v

/-- Go map read with ok-flag: `sections[sid]`. -/
def lookupSection (rc : RecordConfig) (sid : String) : Option SectionConfig :=
  (rc.sections.find? fun p => p.1 == sid).map Prod.snd

/-- Go map read dropping the ok-flag: zero `SectionConfig` when absent. -/
def lookupSectionD (rc : RecordConfig) (sid : String) : SectionConfig :=
  (lookupSection rc sid).getD default

/-- Lexicographic comparison of char lists, mirroring Go string `<=`
(byte order; the identifiers compared here are ASCII). -/
def charListLe : List Char → List Char → Bool
  | [], _ => true
  | _ :: _, [] => false
  | a :: as, b :: bs => if a < b then true else if b < a then false else charListLe as bs

/-- Go string `<=`. -/
def strLe (a b : String) : Bool := charListLe a.data b.data

/-- Insertion step of string sorting, mirroring the effect of Go
`sort.Strings`. -/
def insertSorted (x : String) : List String → List String
  | [] => [x]
  | y :: ys => if strLe x y then x :: y :: ys else y :: insertSorted x ys

/-- Model of `sort.Strings` on a key list. -/
def sortStrings : List String → List String
  | [] => []
  | x :: xs => insertSorted x (sortStrings xs)

/-! ### FSM transition tables (pkg/fsm constants and `NewRecordFSM` /
`NewMainMenuFSM`, src/unnamed/part_010 and part_011) -/

def StateIdle : String := "idle"
def StateViewingList : String := "viewingList"
def StateRecordIdle : String := "record_idle"
def StateSelectingSection : String := "selecting_section"
def StateAnsweringQuestion : String := "answering_question"

def EventViewList : String := "view_list"
def EventListNext : String := "list_next"
def EventListBack : String := "list_back"
def EventBackToIdle : String := "back_to_idle"

def EventStartRecord : String := "start_record"
def EventSelectSection : String := "select_section"
def EventAnswerQuestion : String := "answer_question"
def EventSectionComplete : String := "section_complete"
def EventCancelSection : String := "cancel_section"
def EventSaveFullRecord : String := "save_full_record"
def EventExitToMainMenu : String := "exit_to_main_menu"
def EventForceExit : String := "force_exit"

def CallbackActionPref : String := "action:"
def CallbackSectionPref : String := "section:"
def CallbackAnswerPref : String := "answer:"
def CallbackListNavPref : String := "list_nav:"

def ActionSaveRecord : String := "save_record"
def ActionNewRecord : String := "new_record"
def ActionExitMenu : String := "exit_menu"
def ActionCancelSection : String := "cancel_section"
def ActionShareLast : String := "share_last"

/-- The event table of `NewRecordFSM`: (event name, source states, destination). -/
def recordFSMEvents : List (String × List String × String) :=
  [ (EventStartRecord, [StateRecordIdle], StateSelectingSection),
    (EventSelectSection, [StateSelectingSection], StateAnsweringQuestion),
    (EventAnswerQuestion, [StateAnsweringQuestion], StateAnsweringQuestion),
    (EventSectionComplete, [StateAnsweringQuestion], StateSelectingSection),
    (EventCancelSection, [StateAnsweringQuestion], StateSelectingSection),
    (EventSaveFullRecord, [StateSelectingSection], StateRecordIdle),
    (EventExitToMainMenu, [StateSelectingSection], StateRecordIdle),
    (EventForceExit, [StateSelectingSection, StateAnsweringQuestion], StateRecordIdle) ]

/-- The event table of `NewMainMenuFSM`. -/
def mainMenuFSMEvents : List (String × List String × String) :=
  [ (EventViewList, [StateIdle], StateViewingList),
    (EventListNext, [StateViewingList], StateViewingList),
    (EventListBack, [StateViewingList], StateViewingList),
    (EventBackToIdle, [StateViewingList], StateIdle) ]

/-- Destination of an event from a source state in a looplab-style table. -/
def fsmDest (events : List (String × List String × String)) (ev src : String) :
    Option String :=
  (events.find? fun e => e.1 == ev && e.2.1.contains src).map (fun e => e.2.2)

/-! ### Forward pipeline (pkg/fsm/forward.go) -/

def noAnswerPlaceholder : String := "no_answer"

structure ForwardQuestion where
  prompt : String
  answer : String
  deriving Repr, DecidableEq

structure ForwardSection where
  title : String
  questions : List ForwardQuestion
  deriving Repr, DecidableEq

structure ForwardPayload where
  userID : Int
  userName : String
  createdAt : String
  sections : List ForwardSection
  deriving Repr, DecidableEq

/-- Stand-in for Go stdlib `time.Format "02.01.2006 15:04"`; the engine
never inspects the formatted text, only embeds it in the payload. -/
def formatDate (t : Nat) : String := toString t

/-- The section ids in the order used by `buildForwardPayload`
(`sort.Strings` over the map keys). -/
def sortedSectionIDs (rc : RecordConfig) : List String :=
  sortStrings (rc.sections.map Prod.fst)

/-- The loop body of `buildForwardPayload` for one section id. -/
def payloadSectionOf (rc : RecordConfig) (record : Record) (sid : String) :
    ForwardSection :=
  let sc := lookupSectionD rc sid
  { title := sc.title
    questions := sc.questions.map fun q =>
      let answer := mapGet record.data q.storeKey
      { prompt := q.prompt
        answer := if answer = "" then noAnswerPlaceholder else answer } }

/-- Model of `buildForwardPayload` (forward.go lines 123-164). -/
def buildForwardPayload (now : Nat) (rc : RecordConfig) (record : Record)
    (s : UserState) : ForwardPayload :=
  { userID := s.userID
    userName := s.userName
    createdAt := formatDate (if record.createdAt = 0 then now else record.createdAt)
    sections := (sortedSectionIDs rc).map (payloadSectionOf rc record) }

/-- Model of `renderForwardMessage`: execution of the fixed `forwardTpl` template
(forward.go lines 38-44) on a payload. -/
def renderForwardMessage (p : ForwardPayload) : String :=
  "Ответы пользователя " ++ p.userName ++ " (ID: " ++ toString p.userID ++ ")\n"
    ++ "Дата записи: " ++ p.createdAt ++ "\n"
    ++ String.join (p.sections.map fun sec =>
        "## " ++ sec.title ++ "\n"
          ++ String.join (sec.questions.map fun q =>
              "- " ++ q.prompt ++ ":\n  " ++ q.answer ++ "\n")
          ++ "\n")

/-- Index of the most recent saved record: the Go loop in
`selectRecordForForward` scans `Records` from the end and stops at the
first entry with `IsSaved`. -/
def lastSavedIdx? : List Record → Option Nat
  | [] => none
  | r :: rs =>
    match lastSavedIdx? rs with
    | some i => some (i + 1)
    | none => if r.isSaved then some 0 else none

/-- Model of `selectRecordForForward` (forward.go lines 111-121): most recent saved
record, else the current draft, else none. -/
def selectRecordForForward (s : UserState) : Option Record :=
  match lastSavedIdx? s.records with
  | some i => s.records[i]?
  | none => s.currentRecord

/-- Model of `clearUserAnswers` (forward.go lines 174-191) applied to the record
chosen by `selectRecordForForward`: drop exactly the forwarded record
(pointer identity modelled by its index), clear the draft pointer when the
draft itself was forwarded, and zero the cursor and prompt fields. -/
def clearUserAnswers (s : UserState) : UserState :=
  match lastSavedIdx? s.records with
  | some i =>
    { s with records := s.records.eraseIdx i, currentSection := "",
             currentQuestion := 0, lastMessageID := 0, lastPrompt := emptyBotMessage }
  | none =>
    { s with currentRecord := none, currentSection := "",
             currentQuestion := 0, lastMessageID := 0, lastPrompt := emptyBotMessage }

/-- Model of `forwardWithTarget` (forward.go lines 63-107). `sendOK` is whether the
outbound send to `targetUserID` returns a nil error; the render-error path
of the fixed template is unreachable and hence not represented. -/
def forwardWithTarget (now : Nat) (s : UserState) (rc : RecordConfig)
    (chatID targetUserID : Int) (clearOnSuccess requireConfigured : Bool)
    (successText : Int → String) (sendOK : Bool) : UserState × List PortCall :=
  match selectRecordForForward s with
  | none => (s, [.send chatID "Нет ответов для отправки."])
  | some record =>
    if requireConfigured = true ∧ targetUserID = 0 then
      (s, [.send chatID "Не настроен TARGET_USER_ID, отправка недоступна."])
    else
      let text := renderForwardMessage (buildForwardPayload now rc record s)
      if text.length = 0 then
        (s, [.send chatID "Нет данных для отправки."])
      else if sendOK then
        let s' := if clearOnSuccess then clearUserAnswers s else s
        (s', [.send targetUserID text, .send chatID (successText targetUserID)])
      else
        (s, [.send targetUserID text,
             .send chatID "Не удалось отправить ответы, попробуйте позже."])

/-- Model of `handleForwardToTarget` = reviewer-forward: clears on success and
requires a configured target. -/
def handleForwardToTarget (now : Nat) (s : UserState) (rc : RecordConfig)
    (chatID targetUserID : Int) (sendOK : Bool) : UserState × List PortCall :=
  forwardWithTarget now s rc chatID targetUserID true true
    (fun id => "Ответы отправлены на ID " ++ toString id ++ ".") sendOK

/-- Model of `handleForwardToSelf`: target is the requester, never clears. -/
def handleForwardToSelf (now : Nat) (s : UserState) (rc : RecordConfig)
    (chatID : Int) (sendOK : Bool) : UserState × List PortCall :=
  forwardWithTarget now s rc chatID chatID false false
    (fun _ => "Ответы отправлены вам в этот чат.") sendOK

/-! ### Record FSM entry callbacks (src/unnamed/part_010) -/

/-- An inline keyboard button (text, callback payload). -/
structure InlineButton where
  text : String
  callbackData : String
  deriving Repr, DecidableEq

/-- An inline keyboard: rows of buttons. -/
abbrev Keyboard := List (List InlineButton)

/-- Whether `needle` occurs contiguously in `hay` (char lists). -/
def charsHasInfix (needle : List Char) : List Char → Bool
  | [] => needle.isEmpty
  | c :: rest => needle.isPrefixOf (c :: rest) || charsHasInfix needle rest

/-- Model of `strings.Contains` on error text. -/
def strContains (hay needle : String) : Bool :=
  charsHasInfix needle.data hay.data

/-- Text of the main-menu message built by `sendMainMenu`. -/
def mainMenuText (s : UserState) : String :=
  "👤 Имя: " ++ s.userName ++ "\n🆔 ID: " ++ toString s.userID
    ++ "\n📊 Кол-во записей: " ++ toString s.records.length
    ++ "\n\nВыберите действие:"

/-- Model of `toBotMessageFromPort` (part_010 lines 633-644); the Go `%T` of the
markup is summarized by a fixed tag, no claim inspects it. -/
def toBotMessageFromPort (chatID : Int) (messageID : Int) (text : String) :
    BotMessage :=
  { chatID := chatID, messageID := messageID, transport := "telegram",
    payload := text, meta := [("markup_type", "InlineKeyboardMarkup")] }

/-- Model of `sectionHasData` (part_010 lines 646-656): some question of the section
has a non-empty value in the draft data. -/
def sectionHasData (sc : SectionConfig) (recordData : List (String × String)) :
    Bool :=
  sc.questions.any fun q => mapGet recordData q.storeKey ≠ ""

/-- Model of `getSortedSectionIDs` (part_010 lines 658-665): despite its name it
returns the map keys in Go map-iteration order, without sorting; the
iteration order is the model parameter. -/
def getSortedSectionIDs (iterOrder : List String) : List String := iterOrder

/-- The inline keyboard built by `enterSelectingSection` (part_010 lines
358-381): one row per section in map-iteration order, check-mark suffix for
sections with data, then the save/exit action row. -/
def sectionKeyboard (rc : RecordConfig) (iterOrder : List String)
    (recordData : List (String × String)) : Keyboard :=
  ((getSortedSectionIDs iterOrder).map fun sid =>
      let sc := lookupSectionD rc sid
      let buttonText := if sectionHasData sc recordData then sc.title ++ " ✅" else sc.title
      [⟨buttonText, CallbackSectionPref ++ sid⟩])
    ++ [[⟨"💾 Сохранить запись", CallbackActionPref ++ ActionSaveRecord⟩,
         ⟨"⬆️ Выйти в меню", CallbackActionPref ++ ActionExitMenu⟩]]

/-- Prompt text of the section-selection menu. -/
def selectSectionPrompt : String :=
  "Выберите секцию для заполнения/редактирования или действие:"

/-- Model of `enterSelectingSection` (part_010 lines 300-407). Returns the updated
state, the port calls made, and the FSM events fired (the `logAndForceExit`
and edit-error paths fire `EventForceExit`). The nil-`Sections` guard of the
Go code has no analogue for an association list and the nil-`Data` guard
none for a value map; the nil-draft guard is kept. -/
def enterSelectingSection (iterOrder : List String) (port : PortModel)
    (s : UserState) (rc : RecordConfig) (chatID : Int) (messageID : Int) :
    UserState × List PortCall × List String :=
  match s.currentRecord with
  | none => (s, [], [EventForceExit])
  | some rec =>
    let _kb := sectionKeyboard rc iterOrder rec.data
    let res :=
      if messageID ≠ 0 then port.editMessage chatID messageID selectSectionPrompt
      else port.sendMessage chatID selectSectionPrompt
    let call :=
      if messageID ≠ 0 then PortCall.edit chatID messageID selectSectionPrompt
      else PortCall.send chatID selectSectionPrompt
    match res with
    | .ok m =>
      ({ s with lastMessageID := m.messageID,
                lastPrompt := toBotMessageFromPort chatID m.messageID selectSectionPrompt },
       [call], [])
    | .error e =>
      if strContains e.msg "message is not modified" then
        ({ s with lastMessageID := messageID,
                  lastPrompt := toBotMessageFromPort chatID messageID selectSectionPrompt },
         [call], [])
      else
        (s, [call], [EventForceExit])

/-- A strategy prompt specification (`questions.PromptSpec`). -/
structure PromptSpec where
  text : String
  keyboard : Option Keyboard
  forceNew : Bool
  deriving Repr, DecidableEq

/-- Model of `questions.RenderContext` (port reference omitted: strategies
must not perform I/O). -/
structure RenderContext where
  lastPrompt : BotMessage
  chatID : Int
  messageID : Int
  record : Option Record
  sectionID : String
  sectionConf : SectionConfig
  question : QuestionConfig
  callbackPref : String
  deriving Repr

/-- A strategy renderer, as resolved from the registry by type tag. -/
abbrev StrategyRender := RenderContext → Except String PromptSpec

/-- The render context built by `askCurrentQuestion` (part_010 lines 437-448). -/
def askRenderCtx (s : UserState) (sc : SectionConfig) (q : QuestionConfig)
    (messageIDToEdit : Int) : RenderContext :=
  { lastPrompt := s.lastPrompt, chatID := s.userID, messageID := messageIDToEdit,
    record := s.currentRecord, sectionID := s.currentSection, sectionConf := sc,
    question := q, callbackPref := CallbackAnswerPref }

/-- The cancel row appended below every question keyboard. -/
def cancelRow : List InlineButton :=
  [⟨"⬅️ Назад к выбору секций", CallbackActionPref ++ ActionCancelSection⟩]

/-- Model of `askCurrentQuestion` (part_010 lines 409-500). `getStrategy` models
`questions.Get` on the type tag. Returns the updated state and port calls;
the function fires no FSM events. -/
def askCurrentQuestion (getStrategy : String → Option StrategyRender)
    (port : PortModel) (s : UserState) (rc : RecordConfig)
    (messageIDToEdit : Int) : UserState × List PortCall :=
  let lastMsgID := s.lastMessageID
  match lookupSection rc s.currentSection with
  | none => (s, [.send s.userID "Ошибка конфигурации секции."])
  | some sectionConf =>
    if s.currentQuestion < 0 ∨ (sectionConf.questions.length : Int) ≤ s.currentQuestion then
      (s, [.send s.userID "Ошибка навигации по вопросам."])
    else
      let question := sectionConf.questions.getD s.currentQuestion.toNat default
      match getStrategy question.qtype with
      | none => (s, [.send s.userID "Неизвестный тип вопроса. Попробуйте позже."])
      | some render =>
        match render (askRenderCtx s sectionConf question messageIDToEdit) with
        | .error _ => (s, [.send s.userID "Не удалось подготовить вопрос. Попробуйте позже."])
        | .ok prompt =>
          let _kb := (prompt.keyboard.getD []) ++ [cancelRow]
          let fallback := messageIDToEdit = 0 ∧ lastMsgID ≠ 0 ∧ prompt.forceNew = false
          let effectiveMessageID := if fallback then lastMsgID else messageIDToEdit
          let isEdit := (messageIDToEdit ≠ 0 ∧ prompt.forceNew = false) ∨ fallback
          let doEdit := isEdit ∧ effectiveMessageID ≠ 0
          let res :=
            if doEdit then port.editMessage s.userID effectiveMessageID prompt.text
            else port.sendMessage s.userID prompt.text
          let call :=
            if doEdit then PortCall.edit s.userID effectiveMessageID prompt.text
            else PortCall.send s.userID prompt.text
          match res with
          | .ok m =>
            ({ s with lastMessageID := m.messageID, lastPrompt := m }, [call])
          | .error e =>
            if isEdit ∧ e.code = "message_not_modified" then
              let sentMsg : BotMessage :=
                { chatID := s.userID, messageID := effectiveMessageID,
                  transport := "telegram", payload := "", meta := [] }
              ({ s with lastMessageID := sentMsg.messageID, lastPrompt := sentMsg }, [call])
            else
              (s, [call])

/-- The record finalized by the `save_full_record` branch of
`enterRecordIdle` (part_010 lines 558-567): `IsSaved = true`,
`CreatedAt = time.Now()`, `ID = fmt.Sprintf("%d-%d", userID, nanos)`. -/
def savedRecordOf (now : Nat) (userID : Int) (rec : Record) : Record :=
  { rec with isSaved := true, createdAt := now,
             id := toString userID ++ "-" ++ toString now }

/-- Model of `enterRecordIdle` (part_010 lines 525-614). Branches on the triggering
event; appends the finalized draft on save, clears the cursor fields in
every case, and shows the final text then the main menu. -/
def enterRecordIdle (now : Nat) (event : String) (port : PortModel)
    (s : UserState) (chatID : Int) (messageID : Int) (failureReason : String) :
    UserState × List PortCall :=
  let outcome : String × Bool × Option Record :=
    if event = EventSaveFullRecord then
      match s.currentRecord with
      | some rec => ("✅ Запись успешно сохранена!", true, some (savedRecordOf now s.userID rec))
      | none => ("⚠️ Ошибка: Не найден черновик для сохранения.", true, none)
    else if event = EventExitToMainMenu then
      ("Выход из режима добавления. Черновик доступен для продолжения.", false, none)
    else if event = EventForceExit then
      ("⚠️ Произошла ошибка (" ++ failureReason ++ "). Ввод прерван. Черновик сохранен.",
       false, none)
    else
      ("Операция завершена.", true, none)
  let finalText := outcome.1
  let clearDraft := outcome.2.1
  let appended := outcome.2.2
  let records' :=
    match appended with
    | some r => s.records ++ [r]
    | none => s.records
  let s' : UserState :=
    { s with records := records', currentSection := "", currentQuestion := 0,
             lastMessageID := 0,
             currentRecord := if clearDraft then none else s.currentRecord }
  let finalCalls :=
    if messageID ≠ 0 then
      match port.editMessage chatID messageID finalText with
      | .ok _ => [PortCall.edit chatID messageID finalText]
      | .error e =>
        if strContains e.msg "message is not modified" then
          [PortCall.edit chatID messageID finalText]
        else
          [PortCall.edit chatID messageID finalText, PortCall.send chatID finalText]
    else [PortCall.send chatID finalText]
  (s', finalCalls ++ [PortCall.send chatID (mainMenuText s')])

/-! ### Update dispatcher branches (pkg/state/interfaces.go) -/

/-- Model of `strings.SplitN(s, ":", 2)`: the portion before the first colon and,
when a colon exists, the remainder after it (char-list worker). -/
def splitOnceChars : List Char → List Char × Option (List Char)
  | [] => ([], none)
  | c :: cs =>
    if c = ':' then ([], some cs)
    else
      let r := splitOnceChars cs
      (c :: r.1, r.2)

/-- Model of `strings.SplitN(s, ":", 2)` on strings. -/
def splitOnce (s : String) : String × Option String :=
  let r := splitOnceChars s.data
  (String.mk r.1, r.2.map String.mk)

/-- The current question id computed inline by the answer-callback branch
(interfaces.go lines 265-269): empty unless the section resolves and the
index is in range. -/
def currentQuestionID (rc : RecordConfig) (s : UserState) : String :=
  match lookupSection rc s.currentSection with
  | some sc =>
    if 0 ≤ s.currentQuestion ∧ s.currentQuestion < (sc.questions.length : Int) then
      (sc.questions.getD s.currentQuestion.toNat default).id
    else ""
  | none => ""

/-- The question resolved by the matched answer path. -/
def currentQuestionOf (rc : RecordConfig) (s : UserState) : QuestionConfig :=
  (lookupSectionD rc s.currentSection).questions.getD s.currentQuestion.toNat default

/-- The `CallbackAnswerPref` branch of `handleCallbackQuery`
(interfaces.go lines 253-305), entered with `value` = the payload after the
first colon. The initial blanket `AnswerCallback(query.ID, "")` of
`handleCallbackQuery` is the first call emitted. The strategy dispatch on a
matching question id (lines 272-295) is supplied as `onMatched`, since the
registry is dynamic and the claims below concern only the mismatch path. -/
def handleAnswerCallback
    (onMatched : QuestionConfig → String → UserState × List PortCall)
    (rc : RecordConfig) (s : UserState) (queryID : String) (value : String) :
    UserState × List PortCall :=
  let ack0 : List PortCall := [.ack queryID ""]
  if s.recordFSMState = StateAnsweringQuestion then
    match splitOnce value with
    | (_, none) => (s, ack0)
    | (questionID, some optionValue) =>
      if currentQuestionID rc s = questionID then
        let r := onMatched (currentQuestionOf rc s) optionValue
        (r.1, ack0 ++ r.2)
      else
        (s, ack0 ++ [.ack queryID "⚠️ Ответ на предыдущий вопрос?"])
  else (s, ack0)

/-- The `CallbackListNavPref` branch of `handleCallbackQuery`
(interfaces.go lines 367-411), restricted to its effect on the user state:
`next` adds 5 to the offset, `back` subtracts 5 clamping at 0, `tomenu`
fires `back_to_idle` on the main-menu FSM; outside `viewingList` nothing
changes. -/
def handleListNavCallback (s : UserState) (navAction : String) : UserState :=
  if s.mainMenuFSMState = StateViewingList then
    if navAction = "next" then { s with listOffset := s.listOffset + 5 }
    else if navAction = "back" then
      let newOffset := s.listOffset - 5
      { s with listOffset := if newOffset < 0 then 0 else newOffset }
    else if navAction = "tomenu" then { s with mainMenuFSMState := StateIdle }
    else s
  else s

/-- The page window `[start, end)` computed by `viewListHandler`
(part_010 lines 124-140) from the offset and the saved-record count
(`pageSize = 5`; Go integer division). -/
def viewListWindow (offset : Int) (total : Nat) : Int × Int :=
  let start0 : Int := offset
  let end0 : Int := offset + 5
  let start1 : Int := if start0 < 0 then 0 else start0
  let start2 : Int :=
    if (total : Int) ≤ start1 then
      let s : Int := ((total / 5) * 5 : Nat)
      if s = (total : Int) then
        (if (total : Int) - 5 < 0 then 0 else (total : Int) - 5)
      else s
    else start1
  let end1 : Int := if (total : Int) < end0 then (total : Int) else end0
  (start2, end1)

/-! ### Schema validation (pkg/config/config.go) -/

/-- Per-question checks of `RecordConfig.Validate` threaded over the
already-seen store keys (`uniqueStoreKeys`); `sv` models
`validateQuestionWithStrategy`. Returns the first error and the updated
seen set. -/
def validateQuestions (sv : String → QuestionConfig → Option String)
    (sectionID : String) :
    List QuestionConfig → List String → Option String × List String
  | [], seen => (none, seen)
  | q :: qs, seen =>
    if q.id = "" then
      (some ("config validation failed: a question in section " ++ sectionID ++ " has no id"), seen)
    else if q.prompt = "" then
      (some ("config validation failed: question " ++ q.id ++ " in section " ++ sectionID ++ " has no prompt"), seen)
    else if q.storeKey = "" then
      (some ("config validation failed: question " ++ q.id ++ " in section " ++ sectionID ++ " has no store_key"), seen)
    else if seen.contains q.storeKey then
      (some ("config validation failed: duplicate store_key " ++ q.storeKey), seen)
    else
      let seen' := q.storeKey :: seen
      match sv sectionID q with
      | some e => (some e, seen')
      | none => validateQuestions sv sectionID qs seen'

/-- The per-section loop of `RecordConfig.Validate` (config.go lines
43-72): title check first, a section with zero questions is skipped
(`continue`), otherwise its questions are checked. -/
def validateSections (sv : String → QuestionConfig → Option String) :
    List (String × SectionConfig) → List String → Option String
  | [], _ => none
  | (sid, sc) :: rest, seen =>
    if sc.title = "" then
      some ("config validation failed: section " ++ sid ++ " has no title")
    else if sc.questions.isEmpty then validateSections sv rest seen
    else
      match validateQuestions sv sid sc.questions seen with
      | (some e, _) => some e
      | (none, seen') => validateSections sv rest seen'

/-- Model of `RecordConfig.Validate` (config.go lines 33-74); `none` means success.
Go iterates the sections map in unspecified order, which can only affect
which error is reported, not acceptance; the association-list order is
used. -/
def validateRecordConfig (sv : String → QuestionConfig → Option String)
    (rc : RecordConfig) : Option String :=
  if rc.sections.isEmpty then some "config validation failed: no sections defined"
  else validateSections sv rc.sections []

/-! ### Multi-step compound strategy (pkg/fsm/questions/text_rating_strategy.go) -/

/-- Model of `TextRatingStrategy.getRatingRange` (lines 302-314): zero means unset;
defaults are 1 and 10. -/
def getRatingRange (q : QuestionConfig) : Int × Int :=
  (if q.ratingMin = 0 then 1 else q.ratingMin,
   if q.ratingMax = 0 then 10 else q.ratingMax)

/-- Model of `TextRatingStrategy.Validate` (lines 28-58); `none` means accepted. -/
def textRatingValidate (q : QuestionConfig) : Option String :=
  if 0 < q.options.length then
    some "text_rating question should not have options"
  else if q.ratingMin ≠ 0 ∧ q.ratingMin < 1 then
    some "rating_min must be at least 1"
  else if q.ratingMax ≠ 0 ∧ 20 < q.ratingMax then
    some "rating_max cannot exceed 20"
  else if q.ratingMin ≠ 0 ∧ q.ratingMax ≠ 0 ∧ q.ratingMax < q.ratingMin then
    some "rating_min cannot be greater than rating_max"
  else none

/-! ## Helper lemmas -/

theorem renderForwardMessage_length_pos (p : ForwardPayload) :
    0 < (renderForwardMessage p).length := by
  have h1 : ∀ a b : String, 0 < a.length → 0 < (a ++ b).length := by
    intro a b h
    rw [String.length_append]
    omega
  unfold renderForwardMessage
  repeat apply h1 _ _
  decide

theorem mem_of_getElem?_rec {l : List Record} {i : Nat} {a : Record}
    (h : l[i]? = some a) : a ∈ l := by
  induction l generalizing i with
  | nil => simp at h
  | cons x xs ih =>
    cases i with
    | zero =>
      simp only [List.getElem?_cons_zero, Option.some.injEq] at h
      simp [h]
    | succ n =>
      simp only [List.getElem?_cons_succ] at h
      exact List.mem_cons_of_mem _ (ih h)

theorem lastSavedIdx?_none_iff (l : List Record) :
    lastSavedIdx? l = none ↔ ∀ r ∈ l, r.isSaved = false := by
  induction l with
  | nil => simp [lastSavedIdx?]
  | cons r rs ih =>
    cases h : lastSavedIdx? rs with
    | some i =>
      simp only [lastSavedIdx?, h, List.mem_cons, forall_eq_or_imp]
      constructor
      · intro hc; exact absurd hc (by simp)
      · rintro ⟨-, hall⟩
        have hr := ih.mpr hall
        rw [h] at hr
        exact absurd hr (by simp)
    | none =>
      simp only [lastSavedIdx?, h, List.mem_cons, forall_eq_or_imp]
      cases hs : r.isSaved with
      | true => simp [hs]
      | false =>
        simp only [hs]
        simp only [Bool.false_eq_true, if_false]
        constructor
        · intro _
          exact ⟨trivial, ih.mp h⟩
        · intro _
          trivial

theorem lastSavedIdx?_spec (l : List Record) (i : Nat)
    (h : lastSavedIdx? l = some i) :
    i < l.length ∧
    (∃ r, l[i]? = some r ∧ r.isSaved = true) ∧
    (∀ j r', i < j → l[j]? = some r' → r'.isSaved = false) := by
  induction l generalizing i with
  | nil => simp [lastSavedIdx?] at h
  | cons r rs ih =>
    simp only [lastSavedIdx?] at h
    cases hrs : lastSavedIdx? rs with
    | some k =>
      rw [hrs] at h
      obtain rfl : k + 1 = i := by simpa using h
      obtain ⟨hlt, ⟨r0, hr0, hs0⟩, hafter⟩ := ih k hrs
      refine ⟨by simp only [List.length_cons]; omega,
        ⟨r0, by simpa using hr0, hs0⟩, ?_⟩
      intro j r' hj hget
      match j, hj with
      | j + 1, hj =>
        exact hafter j r' (Nat.lt_of_succ_lt_succ hj) (by simpa using hget)
    | none =>
      rw [hrs] at h
      cases hs : r.isSaved with
      | true =>
        rw [hs, if_pos rfl] at h
        obtain rfl : 0 = i := by simpa using h
        refine ⟨Nat.succ_pos _, ⟨r, by simp, hs⟩, ?_⟩
        intro j r' hj hget
        match j, hj with
        | j + 1, _ =>
          simp only [List.getElem?_cons_succ] at hget
          exact (lastSavedIdx?_none_iff rs).mp hrs r' (mem_of_getElem?_rec hget)
      | false =>
        rw [hs] at h
        simp at h

theorem mapGet_mapSet (m : List (String × String)) (k v k' : String) :
    mapGet (mapSet m k v) k' = if k = k' then v else mapGet m k' := by
  induction m with
  | nil => simp [mapGet, mapSet]
  | cons p rest ih =>
    obtain ⟨pk, pv⟩ := p
    by_cases h1 : pk = k
    · subst h1
      by_cases h2 : pk = k'
      · subst h2; simp [mapGet, mapSet]
      · simp [mapGet, mapSet, h2]
    · by_cases h2 : pk = k'
      · subst h2
        have hkk : ¬ k = pk := fun hh => h1 hh.symm
        simp [mapGet, mapSet, h1, hkk]
      · simp [mapGet, mapSet, h1, h2, ih]

/-! ## Claims -/

/-- C1: a forward invocation whose outbound send to the target errors
leaves the user state identical (records, draft pointer, current section,
question index, last message id, last prompt all unchanged) and notifies
the requester with the failure string. -/
theorem forward_failure_preserves_state
    (now : Nat) (s : UserState) (rc : RecordConfig) (chatID targetUserID : Int)
    (clearOnSuccess requireConfigured : Bool) (successText : Int → String)
    (record : Record)
    (hsel : selectRecordForForward s = some record)
    (hcfg : ¬(requireConfigured = true ∧ targetUserID = 0)) :
    forwardWithTarget now s rc chatID targetUserID clearOnSuccess
        requireConfigured successText false =
      (s, [.send targetUserID (renderForwardMessage (buildForwardPayload now rc record s)),
           .send chatID "Не удалось отправить ответы, попробуйте позже."]) := by
  have hlen : ¬ ((renderForwardMessage (buildForwardPayload now rc record s)).length = 0) :=
    Nat.pos_iff_ne_zero.mp (renderForwardMessage_length_pos _)
  simp only [forwardWithTarget, hsel, if_neg hcfg, if_neg hlen]
  simp

/-- Witness state: one saved record. -/
def recW : Record := ⟨"1-100", [("name", "Alice")], true, 100⟩

/-- Witness question/section/config. -/
def qTextW : QuestionConfig :=
  { id := "q1", prompt := "Name?", qtype := "text", storeKey := "name",
    options := [], ratingMin := 0, ratingMax := 0,
    nextButtonLabel := "", finishButtonLabel := "" }

def scW : SectionConfig := ⟨"Personal", [qTextW]⟩

def rcW : RecordConfig := ⟨[("personal", scW)], []⟩

def sW : UserState :=
  { userID := 1, userName := "Alice", records := [recW], currentRecord := none,
    currentSection := "", currentQuestion := 0, lastMessageID := 0,
    lastPrompt := emptyBotMessage, listOffset := 0,
    recordFSMState := StateRecordIdle, mainMenuFSMState := StateIdle }

theorem forward_failure_preserves_state_witness :
    (forwardWithTarget 0 sW rcW 1 999 true true (fun id => "ок " ++ toString id) false).1
      = sW := by
  have h := forward_failure_preserves_state 0 sW rcW 1 999 true true
    (fun id => "ок " ++ toString id) recW (by decide) (by decide)
  rw [h]

/-- C3: record selection for forwarding returns the most recent saved
record when one exists (no later index is saved), else the current draft,
else nothing — and in the last case the pipeline sends the nothing-to-send
notice and stops with the state unchanged. -/
theorem selectRecordForForward_spec (s : UserState) :
    (∀ i, lastSavedIdx? s.records = some i →
      ∃ r, s.records[i]? = some r ∧ selectRecordForForward s = some r ∧
        r.isSaved = true ∧
        ∀ j r', i < j → s.records[j]? = some r' → r'.isSaved = false) ∧
    (lastSavedIdx? s.records = none →
      (∀ r ∈ s.records, r.isSaved = false) ∧
      selectRecordForForward s = s.currentRecord) ∧
    (selectRecordForForward s = none →
      ∀ (now : Nat) (rc : RecordConfig) (chatID targetUserID : Int)
        (clearOnSuccess requireConfigured : Bool) (successText : Int → String)
        (sendOK : Bool),
        forwardWithTarget now s rc chatID targetUserID clearOnSuccess
            requireConfigured successText sendOK =
          (s, [.send chatID "Нет ответов для отправки."])) := by
  refine ⟨?_, ?_, ?_⟩
  · intro i hi
    obtain ⟨hlt, ⟨r, hr, hs⟩, hafter⟩ := lastSavedIdx?_spec s.records i hi
    exact ⟨r, hr, by simp [selectRecordForForward, hi, hr], hs, hafter⟩
  · intro h
    exact ⟨(lastSavedIdx?_none_iff s.records).mp h, by simp [selectRecordForForward, h]⟩
  · intro h now rc chatID targetUserID clearOnSuccess requireConfigured successText sendOK
    simp [forwardWithTarget, h]

def sEmptyW : UserState :=
  { sW with records := [], currentRecord := none }

theorem selectRecordForForward_spec_witness :
    forwardWithTarget 3 sEmptyW rcW 7 9 true true (fun _ => "x") true =
      (sEmptyW, [.send 7 "Нет ответов для отправки."]) :=
  (selectRecordForForward_spec sEmptyW).2.2 (by decide) 3 rcW 7 9 true true
    (fun _ => "x") true

/-- C4: a question whose storage key is absent from the record data (or
maps to the empty string) renders as the literal `no_answer` in the forward
payload, and when the record is completed at that key with a non-empty
value only that question's slot changes: headers, titles and all slots of
questions with a different storage key are identical. -/
theorem buildForwardPayload_no_answer
    (now : Nat) (rc : RecordConfig) (r : Record) (s : UserState)
    (i j : Nat) (sid : String) (q : QuestionConfig)
    (hs : (sortedSectionIDs rc)[i]? = some sid)
    (hq : (lookupSectionD rc sid).questions[j]? = some q)
    (hmiss : mapGet r.data q.storeKey = "") :
    (∃ sec, (buildForwardPayload now rc r s).sections[i]? = some sec ∧
      sec.questions[j]? = some ⟨q.prompt, noAnswerPlaceholder⟩) ∧
    (∀ v : String, v ≠ "" →
      let r' : Record := { r with data := mapSet r.data q.storeKey v }
      (buildForwardPayload now rc r' s).userID = (buildForwardPayload now rc r s).userID ∧
      (buildForwardPayload now rc r' s).userName = (buildForwardPayload now rc r s).userName ∧
      (buildForwardPayload now rc r' s).createdAt = (buildForwardPayload now rc r s).createdAt ∧
      (∃ sec', (buildForwardPayload now rc r' s).sections[i]? = some sec' ∧
        sec'.questions[j]? = some ⟨q.prompt, v⟩) ∧
      (∀ (i' j' : Nat) (sid' : String) (q' : QuestionConfig),
        (sortedSectionIDs rc)[i']? = some sid' →
        (lookupSectionD rc sid').questions[j']? = some q' →
        q'.storeKey ≠ q.storeKey →
        ∃ sec1 sec2,
          (buildForwardPayload now rc r s).sections[i']? = some sec1 ∧
          (buildForwardPayload now rc r' s).sections[i']? = some sec2 ∧
          sec1.title = sec2.title ∧
          sec1.questions[j']? = sec2.questions[j']?)) := by
  have hsec : ∀ (rec : Record),
      (buildForwardPayload now rc rec s).sections[i]?
        = some (payloadSectionOf rc rec sid) := by
    intro rec
    simp only [buildForwardPayload, List.getElem?_map, hs, Option.map_some']
  have hsec' : ∀ (rec : Record) (i0 : Nat) (sid0 : String),
      (sortedSectionIDs rc)[i0]? = some sid0 →
      (buildForwardPayload now rc rec s).sections[i0]?
        = some (payloadSectionOf rc rec sid0) := by
    intro rec i0 sid0 h0
    simp only [buildForwardPayload, List.getElem?_map, h0, Option.map_some']
  constructor
  · refine ⟨payloadSectionOf rc r sid, hsec r, ?_⟩
    simp only [payloadSectionOf, List.getElem?_map, hq, Option.map_some', hmiss]
    simp
  · intro v hv
    refine ⟨rfl, rfl, by simp [buildForwardPayload], ?_, ?_⟩
    · refine ⟨payloadSectionOf rc { r with data := mapSet r.data q.storeKey v } sid,
        hsec _, ?_⟩
      simp only [payloadSectionOf, List.getElem?_map, hq, Option.map_some']
      simp [mapGet_mapSet, hv]
    · intro i' j' sid' q' hs' hq' hne
      refine ⟨payloadSectionOf rc r sid',
        payloadSectionOf rc { r with data := mapSet r.data q.storeKey v } sid',
        hsec' r i' sid' hs', hsec' _ i' sid' hs', rfl, ?_⟩
      simp only [payloadSectionOf, List.getElem?_map, hq', Option.map_some']
      have hgg : mapGet (mapSet r.data q.storeKey v) q'.storeKey
          = mapGet r.data q'.storeKey := by
        rw [mapGet_mapSet, if_neg (fun hh => hne hh.symm)]
      simp [hgg]

def recMissingW : Record := ⟨"", [], false, 0⟩

theorem buildForwardPayload_no_answer_witness :
    (∃ sec, (buildForwardPayload 9 rcW recMissingW sW).sections[0]? = some sec ∧
      sec.questions[0]? = some ⟨"Name?", noAnswerPlaceholder⟩) := by
  have h := buildForwardPayload_no_answer 9 rcW recMissingW sW 0 0 "personal" qTextW
    (by decide) (by decide) (by decide)
  exact h.1

theorem savedRecordOf_id_ne_empty (now : Nat) (uid : Int) (rec : Record) :
    (savedRecordOf now uid rec).id ≠ "" := by
  unfold savedRecordOf
  intro h
  have hlen := congrArg String.length h
  simp only [String.length_append] at hlen
  have hone : ("-" : String).length = 1 := rfl
  rw [hone] at hlen
  simp at hlen

/-- C2: firing `save_full_record` from `selecting_section` reaches
`record_idle`, and with a non-nil draft the entry callback marks it saved,
stamps the creation time, assigns a non-empty identifier, appends it
exactly once at the end of the records list, clears the draft pointer and
zeroes the section, question index and last message id. -/
theorem save_record_finalizes
    (now : Nat) (port : PortModel) (s : UserState) (chatID messageID : Int)
    (failureReason : String) (rec : Record)
    (h : s.currentRecord = some rec) :
    fsmDest recordFSMEvents EventSaveFullRecord StateSelectingSection
      = some StateRecordIdle ∧
    (enterRecordIdle now EventSaveFullRecord port s chatID messageID failureReason).1 =
      { s with records := s.records ++ [savedRecordOf now s.userID rec],
               currentRecord := none, currentSection := "",
               currentQuestion := 0, lastMessageID := 0 } ∧
    (savedRecordOf now s.userID rec).isSaved = true ∧
    (savedRecordOf now s.userID rec).id ≠ "" ∧
    (savedRecordOf now s.userID rec).createdAt = now := by
  have h2 : (enterRecordIdle now EventSaveFullRecord port s chatID messageID
      failureReason).1 =
      { s with records := s.records ++ [savedRecordOf now s.userID rec],
               currentRecord := none, currentSection := "",
               currentQuestion := 0, lastMessageID := 0 } := by
    simp [enterRecordIdle, h]
  exact ⟨by decide, h2, rfl, savedRecordOf_id_ne_empty now s.userID rec, rfl⟩

def portOkW : PortModel :=
  { sendMessage := fun c t => .ok ⟨c, 1, "telegram", t, []⟩,
    editMessage := fun c m t => .ok ⟨c, m, "telegram", t, []⟩ }

def sDraftW : UserState :=
  { sW with currentRecord := some newRecord,
            recordFSMState := StateSelectingSection, lastMessageID := 10 }

theorem save_record_finalizes_witness :
    (enterRecordIdle 5 EventSaveFullRecord portOkW sDraftW 1 10 "").1 =
      { sDraftW with
          records := sDraftW.records ++ [savedRecordOf 5 sDraftW.userID newRecord],
          currentRecord := none, currentSection := "",
          currentQuestion := 0, lastMessageID := 0 } :=
  (save_record_finalizes 5 portOkW sDraftW 1 10 "" newRecord rfl).2.1

theorem splitOnceChars_append (l r : List Char) (h : ':' ∉ l) :
    splitOnceChars (l ++ ':' :: r) = (l, some r) := by
  induction l with
  | nil => simp [splitOnceChars]
  | cons c cs ih =>
    have hc : ¬ c = ':' := fun hh => h (hh ▸ List.mem_cons_self c cs)
    have hcs : ':' ∉ cs := fun hh => h (List.mem_cons_of_mem _ hh)
    simp [splitOnceChars, hc, ih hcs]

theorem splitOnce_answer_payload (qid opt : String) (h : ':' ∉ qid.data) :
    splitOnce (qid ++ ":" ++ opt) = (qid, some opt) := by
  obtain ⟨ql⟩ := qid
  obtain ⟨ol⟩ := opt
  have hdata : ((String.mk ql) ++ ":" ++ (String.mk ol)).data = ql ++ ':' :: ol := by
    show (ql ++ [':']) ++ ol = ql ++ ':' :: ol
    simp
  unfold splitOnce
  rw [hdata, splitOnceChars_append ql ol h]
  rfl

/-- C5: an answer callback received in `answering_question` whose decoded
question id differs from the current question id leaves the user state
untouched and produces only the blanket acknowledgement plus the short
stale-button acknowledgement. -/
theorem stale_answer_callback_no_op
    (onMatched : QuestionConfig → String → UserState × List PortCall)
    (rc : RecordConfig) (s : UserState) (queryID qid opt : String)
    (hstate : s.recordFSMState = StateAnsweringQuestion)
    (hqid : ':' ∉ qid.data)
    (hmismatch : currentQuestionID rc s ≠ qid) :
    handleAnswerCallback onMatched rc s queryID (qid ++ ":" ++ opt) =
      (s, [.ack queryID "", .ack queryID "⚠️ Ответ на предыдущий вопрос?"]) := by
  unfold handleAnswerCallback
  rw [if_pos hstate, splitOnce_answer_payload qid opt hqid]
  simp [hmismatch]

def sAnsweringW : UserState :=
  { sW with currentRecord := some newRecord,
            recordFSMState := StateAnsweringQuestion,
            currentSection := "personal", currentQuestion := 0 }

theorem stale_answer_callback_no_op_witness :
    handleAnswerCallback (fun _ _ => (sEmptyW, [])) rcW sAnsweringW "cb9"
        ("q7" ++ ":" ++ "tb") =
      (sAnsweringW, [.ack "cb9" "", .ack "cb9" "⚠️ Ответ на предыдущий вопрос?"]) :=
  stale_answer_callback_no_op (fun _ _ => (sEmptyW, [])) rcW sAnsweringW "cb9"
    "q7" "tb" rfl (by decide) (by decide)

/-- C7: a prompt edit answered with the message-not-modified error is not
treated as a failure. In `askCurrentQuestion` (edit of the stored last
message id) the stored id keeps its prior value, the last prompt points at
it, no other state field changes and no extra call is made; in
`enterSelectingSection` the prior message id is retained and no
`force_exit` is fired. -/
theorem message_not_modified_not_failure :
    (∀ (getStrategy : String → Option StrategyRender) (port : PortModel)
       (s : UserState) (rc : RecordConfig) (sc : SectionConfig)
       (q : QuestionConfig) (render : StrategyRender) (prompt : PromptSpec)
       (e : BotErr),
      lookupSection rc s.currentSection = some sc →
      ¬(s.currentQuestion < 0 ∨ (sc.questions.length : Int) ≤ s.currentQuestion) →
      sc.questions.getD s.currentQuestion.toNat default = q →
      getStrategy q.qtype = some render →
      render (askRenderCtx s sc q 0) = .ok prompt →
      prompt.forceNew = false →
      s.lastMessageID ≠ 0 →
      port.editMessage s.userID s.lastMessageID prompt.text = .error e →
      e.code = "message_not_modified" →
      askCurrentQuestion getStrategy port s rc 0 =
        ({ s with
            lastMessageID := s.lastMessageID,
            lastPrompt := { chatID := s.userID, messageID := s.lastMessageID,
                            transport := "telegram", payload := "", meta := [] } },
         [.edit s.userID s.lastMessageID prompt.text])) ∧
    (∀ (iterOrder : List String) (port : PortModel) (s : UserState)
       (rc : RecordConfig) (chatID messageID : Int) (rec : Record) (e : BotErr),
      s.currentRecord = some rec →
      messageID ≠ 0 →
      port.editMessage chatID messageID selectSectionPrompt = .error e →
      strContains e.msg "message is not modified" = true →
      enterSelectingSection iterOrder port s rc chatID messageID =
        ({ s with
            lastMessageID := messageID,
            lastPrompt := toBotMessageFromPort chatID messageID selectSectionPrompt },
         [.edit chatID messageID selectSectionPrompt], [])) := by
  constructor
  · intro getStrategy port s rc sc q render prompt e hsec hidx hq hstrat hrender hfn
      hlast hedit hcode
    unfold askCurrentQuestion
    simp only [hsec, if_neg hidx, hq, hstrat, hrender, hfn, hedit, hcode]
    simp [hlast]
    rw [hedit]
    simp [hcode]
  · intro iterOrder port s rc chatID messageID rec e hrec hmsg hedit hnm
    unfold enterSelectingSection
    rw [hrec]
    simp only [if_pos hmsg, hedit, hnm]
    simp

def portNotModifiedW : PortModel :=
  { sendMessage := fun c t => .ok ⟨c, 1, "telegram", t, []⟩,
    editMessage := fun _ _ _ =>
      .error ⟨"message_not_modified", "Bad Request: message is not modified"⟩ }

theorem message_not_modified_not_failure_witness :
    enterSelectingSection ["personal"] portNotModifiedW sDraftW rcW 1 10 =
      ({ sDraftW with
          lastMessageID := 10,
          lastPrompt := toBotMessageFromPort 1 10 selectSectionPrompt },
       [.edit 1 10 selectSectionPrompt], []) :=
  message_not_modified_not_failure.2 ["personal"] portNotModifiedW sDraftW rcW 1 10
    newRecord ⟨"message_not_modified", "Bad Request: message is not modified"⟩
    rfl (by decide) rfl (by decide)

/-- A text_rating question with `rating_min = 21` and `rating_max` unset:
`Validate` never compares a configured minimum against 20 or against the
default maximum. -/
def qRating21W : QuestionConfig :=
  { id := "q", prompt := "p", qtype := "text_rating", storeKey := "k",
    options := [], ratingMin := 21, ratingMax := 0,
    nextButtonLabel := "", finishButtonLabel := "" }

/-- C8 counterexample: `Validate` accepts `rating_min = 21, rating_max`
unset, although the effective range (21, 10) violates
`1 ≤ min ≤ max ≤ 20` — so `Validate` does not accept exactly the
configurations satisfying that constraint. -/
theorem textRatingValidate_claim_false :
    textRatingValidate qRating21W = none ∧
    getRatingRange qRating21W = (21, 10) ∧
    ¬(1 ≤ (getRatingRange qRating21W).1 ∧
      (getRatingRange qRating21W).1 ≤ (getRatingRange qRating21W).2 ∧
      (getRatingRange qRating21W).2 ≤ 20) := by
  refine ⟨by decide, by decide, ?_⟩
  intro h
  have := h.2.1
  rw [show (getRatingRange qRating21W).1 = 21 from by decide,
      show (getRatingRange qRating21W).2 = 10 from by decide] at this
  omega

/-- C8 (amended): with no configured bounds the effective range is
`[1, 10]`; `Validate` accepts exactly: no options, a configured minimum is
`≥ 1`, a configured maximum is `≤ 20`, and when both are configured
`min ≤ max` — it never checks a configured bound against a default one
(in particular `min ≤ 20` alone is not enforced). -/
theorem textRatingValidate_characterization (q : QuestionConfig) :
    ((q.ratingMin = 0 → (getRatingRange q).1 = 1) ∧
     (q.ratingMax = 0 → (getRatingRange q).2 = 10)) ∧
    (textRatingValidate q = none ↔
      (q.options = [] ∧
       (q.ratingMin = 0 ∨ 1 ≤ q.ratingMin) ∧
       (q.ratingMax = 0 ∨ q.ratingMax ≤ 20) ∧
       (q.ratingMin = 0 ∨ q.ratingMax = 0 ∨ q.ratingMin ≤ q.ratingMax))) := by
  constructor
  · exact ⟨fun h => by simp [getRatingRange, h], fun h => by simp [getRatingRange, h]⟩
  · unfold textRatingValidate
    constructor
    · intro h
      by_cases h1 : 0 < q.options.length
      · rw [if_pos h1] at h; cases h
      · rw [if_neg h1] at h
        by_cases h2 : q.ratingMin ≠ 0 ∧ q.ratingMin < 1
        · rw [if_pos h2] at h; cases h
        · rw [if_neg h2] at h
          by_cases h3 : q.ratingMax ≠ 0 ∧ 20 < q.ratingMax
          · rw [if_pos h3] at h; cases h
          · rw [if_neg h3] at h
            by_cases h4 : q.ratingMin ≠ 0 ∧ q.ratingMax ≠ 0 ∧ q.ratingMax < q.ratingMin
            · rw [if_pos h4] at h; cases h
            · exact ⟨List.length_eq_zero.mp (by omega), by omega, by omega, by omega⟩
    · rintro ⟨ho, hmin, hmax, hrel⟩
      have h1 : ¬ 0 < q.options.length := by simp [ho]
      rw [if_neg h1, if_neg (by omega : ¬(q.ratingMin ≠ 0 ∧ q.ratingMin < 1)),
          if_neg (by omega : ¬(q.ratingMax ≠ 0 ∧ 20 < q.ratingMax)),
          if_neg (by omega : ¬(q.ratingMin ≠ 0 ∧ q.ratingMax ≠ 0 ∧ q.ratingMax < q.ratingMin))]

def qRatingDefaultW : QuestionConfig :=
  { id := "r", prompt := "rate", qtype := "text_rating", storeKey := "rk",
    options := [], ratingMin := 0, ratingMax := 0,
    nextButtonLabel := "", finishButtonLabel := "" }

theorem textRatingValidate_characterization_witness :
    (getRatingRange qRatingDefaultW).1 = 1 ∧ (getRatingRange qRatingDefaultW).2 = 10 ∧
    textRatingValidate qRatingDefaultW = none := by
  have h := textRatingValidate_characterization qRatingDefaultW
  exact ⟨h.1.1 rfl, h.1.2 rfl, h.2.mpr (by decide)⟩

/-! C6: the section-selection keyboard order. -/

/-- Two-section schema used to exercise the keyboard order. -/
def rcTwoSectionsW : RecordConfig :=
  ⟨[("a", ⟨"Секция A", []⟩), ("b", ⟨"Секция B", []⟩)], []⟩

/-- C6 (refuting evaluation): `getSortedSectionIDs` returns the map keys in
whatever order the runtime iterates them; `["b", "a"]` is such an
enumeration of the two-section schema, it differs from the sorted order
used by forward aggregation (`sortedSectionIDs`), and the keyboards built
from the two possible enumerations differ — the order is neither
deterministic nor consistent with aggregation. -/
theorem getSortedSectionIDs_not_sorted :
    List.Perm (getSortedSectionIDs ["b", "a"]) (rcTwoSectionsW.sections.map Prod.fst) ∧
    getSortedSectionIDs ["b", "a"] ≠ sortedSectionIDs rcTwoSectionsW ∧
    sortedSectionIDs rcTwoSectionsW = ["a", "b"] ∧
    sectionKeyboard rcTwoSectionsW ["b", "a"] [] ≠
      sectionKeyboard rcTwoSectionsW ["a", "b"] [] := by
  refine ⟨?_, by decide, by decide, by decide⟩
  decide

theorem validateSections_skip_empty
    (sv : String → QuestionConfig → Option String) (sid title : String)
    (post : List (String × SectionConfig)) (ht : ¬ title = "")
    (pre : List (String × SectionConfig)) (seen : List String) :
    validateSections sv (pre ++ (sid, ⟨title, []⟩) :: post) seen =
      validateSections sv (pre ++ post) seen := by
  induction pre generalizing seen with
  | nil =>
    simp [validateSections, ht, List.isEmpty]
  | cons p pre ih =>
    obtain ⟨sid', sc'⟩ := p
    simp only [List.cons_append, validateSections]
    by_cases h1 : sc'.title = ""
    · simp [h1]
    · rw [if_neg h1, if_neg h1]
      by_cases h2 : sc'.questions.isEmpty
      · rw [if_pos h2, if_pos h2]
        exact ih seen
      · rw [if_neg h2, if_neg h2]
        rcases h3 : validateQuestions sv sid' sc'.questions seen with ⟨e?, seen'⟩
        cases e? with
        | some e => rfl
        | none => exact ih seen'

/-- C9: a section with a non-empty title and an empty question list is
invisible to `Validate` (inserting it anywhere does not change the
validation result of an otherwise non-empty schema), and it still gets a
selectable button in the section-selection keyboard whenever the runtime
enumerates its id. -/
theorem empty_section_validates_and_selectable
    (sv : String → QuestionConfig → Option String)
    (pre post : List (String × SectionConfig)) (sid title : String)
    (meta : List (String × String)) (iterOrder : List String)
    (data : List (String × String))
    (ht : title ≠ "") (hne : pre ++ post ≠ []) (hmem : sid ∈ iterOrder) :
    validateRecordConfig sv ⟨pre ++ (sid, ⟨title, []⟩) :: post, meta⟩ =
      validateRecordConfig sv ⟨pre ++ post, meta⟩ ∧
    ∃ row ∈ sectionKeyboard ⟨pre ++ (sid, ⟨title, []⟩) :: post, meta⟩ iterOrder data,
      ∃ b ∈ row, b.callbackData = CallbackSectionPref ++ sid := by
  constructor
  · unfold validateRecordConfig
    have hne1 : ¬ (pre ++ (sid, (⟨title, []⟩ : SectionConfig)) :: post).isEmpty := by
      simp
    have hne2 : ¬ (pre ++ post).isEmpty := by
      cases hpp : pre ++ post with
      | nil => exact absurd hpp hne
      | cons a l => simp [List.isEmpty]
    rw [if_neg hne1, if_neg hne2]
    exact validateSections_skip_empty sv sid title post ht pre []
  · refine ⟨[⟨(if sectionHasData (lookupSectionD ⟨pre ++ (sid, ⟨title, []⟩) :: post, meta⟩ sid) data
        then (lookupSectionD ⟨pre ++ (sid, ⟨title, []⟩) :: post, meta⟩ sid).title ++ " ✅"
        else (lookupSectionD ⟨pre ++ (sid, ⟨title, []⟩) :: post, meta⟩ sid).title),
      CallbackSectionPref ++ sid⟩], ?_, ?_⟩
    · unfold sectionKeyboard
      apply List.mem_append_left
      apply List.mem_map_of_mem _ hmem
    · exact ⟨_, List.mem_singleton_self _, rfl⟩

def svNoneW : String → QuestionConfig → Option String := fun _ _ => none

theorem empty_section_validates_and_selectable_witness :
    validateRecordConfig svNoneW
        ⟨[("personal", scW), ("extra", ⟨"Extra", []⟩)], []⟩ =
      validateRecordConfig svNoneW ⟨[("personal", scW)], []⟩ ∧
    ∃ row ∈ sectionKeyboard ⟨[("personal", scW), ("extra", ⟨"Extra", []⟩)], []⟩
        ["personal", "extra"] [],
      ∃ b ∈ row, b.callbackData = CallbackSectionPref ++ "extra" :=
  empty_section_validates_and_selectable svNoneW [("personal", scW)] [] "extra"
    "Extra" [] ["personal", "extra"] [] (by decide) (by decide) (by decide)

/-- C10: list pagination never drives the offset negative — `next`, `back`
and `tomenu` all preserve `0 ≤ offset`, `back` sets exactly
`max (offset - 5) 0` — and for any non-negative offset the window the list
renderer derives satisfies `0 ≤ start ≤ end ≤ total`. -/
theorem list_offset_invariant :
    (∀ (s : UserState) (navAction : String), 0 ≤ s.listOffset →
      0 ≤ (handleListNavCallback s navAction).listOffset) ∧
    (∀ s : UserState, s.mainMenuFSMState = StateViewingList →
      (handleListNavCallback s "back").listOffset = max (s.listOffset - 5) 0) ∧
    (∀ (offset : Int) (total : Nat), 0 ≤ offset →
      0 ≤ (viewListWindow offset total).1 ∧
      (viewListWindow offset total).1 ≤ (viewListWindow offset total).2 ∧
      (viewListWindow offset total).2 ≤ (total : Int)) := by
  refine ⟨?_, ?_, ?_⟩
  · intro s navAction h
    unfold handleListNavCallback
    split_ifs <;> (try simp) <;> omega
  · intro s h
    unfold handleListNavCallback
    rw [if_pos h, if_neg (by decide), if_pos rfl]
    by_cases ho2 : s.listOffset - 5 < 0
    · simp only [if_pos ho2]
      rw [max_eq_right (by omega : s.listOffset - 5 ≤ 0)]
    · simp only [if_neg ho2]
      rw [max_eq_left (by omega : (0 : Int) ≤ s.listOffset - 5)]
  · intro offset total h
    have hdiv : total / 5 * 5 ≤ total := Nat.div_mul_le_self total 5
    unfold viewListWindow
    dsimp only
    split_ifs <;> omega

def sListW : UserState :=
  { sW with mainMenuFSMState := StateViewingList, listOffset := 3 }

theorem list_offset_invariant_witness :
    0 ≤ (handleListNavCallback sListW "next").listOffset ∧
    (handleListNavCallback sListW "back").listOffset = max (sListW.listOffset - 5) 0 ∧
    0 ≤ (viewListWindow 3 7).1 ∧ (viewListWindow 3 7).1 ≤ (viewListWindow 3 7).2 ∧
    (viewListWindow 3 7).2 ≤ (7 : Int) := by
  have h1 := list_offset_invariant.1 sListW "next" (by decide)
  have h2 := list_offset_invariant.2.1 sListW rfl
  have h3 := list_offset_invariant.2.2 3 7 (by decide)
  exact ⟨h1, h2, h3.1, h3.2.1, h3.2.2⟩

end SurveyBot
